import Mathlib

/-!
Shallow embedding of the Teamera backend (layered "Clean Architecture"
variant) data model and operations, together with theorems settling the
specification claims about it.

Source files embedded:
- src/backend/src/domain/entities/Application.js
- src/backend/src/domain/entities/User.js   (inside the same module family)
- src/backend/src/domain/usecases/application/index.js
- src/backend/src/domain/usecases/contact/index.js  (Project use cases + entity)
- src/backend/src/infrastructure/repositories (in-memory repositories)
- src/backend/models/User.js, src/backend/api/controllers/userController.js
- src/backend/utils/helpers.js  (paginate)

JavaScript `Date` timestamps are modelled by explicitly passing the current
time as an opaque string (`now`); `throw` is modelled by `Except`; the
in-memory `Map` stores are modelled by lists of records with unique ids
(`Map.set` of a fresh key appends, `Map.set` of a present key replaces).
-/

namespace Teamera

/-- Split a character list at every occurrence of `c` (the char-level view
of JS `split`, used to model the email regular expression). -/
def splitOnChar (c : Char) : List Char → List (List Char)
  | [] => [[]]
  | x :: xs =>
    match splitOnChar c xs with
    | [] => [[x]]
    | y :: ys => if x = c then [] :: y :: ys else (x :: y) :: ys

/-- Strip leading and trailing whitespace from a character list. -/
def trimChars (l : List Char) : List Char :=
  ((l.dropWhile Char.isWhitespace).reverse.dropWhile Char.isWhitespace).reverse

/-- JS `String.prototype.trim()`. -/
def jsTrim (s : String) : String := ⟨trimChars s.data⟩

/-- JS `String.prototype.toLowerCase()`. -/
def jsToLower (s : String) : String := ⟨s.data.map Char.toLower⟩

/-- Application Status Enum (`ApplicationStatus` in Application.js). -/
inductive ApplicationStatus
  | pending
  | accepted
  | rejected
  | withdrawn
deriving DecidableEq, Repr

/-- Public profile of a user, as produced by `User.toPublicProfile` in
entities/User.js (id, name, avatar, bio, skills, socialLinks). -/
structure PublicProfile where
  id : String
  name : String
  avatar : Option String
  bio : String
  skills : List String
  socialLinks : List (String × String)
deriving DecidableEq, Repr

/-- Application entity (constructor field list of entities/Application.js). -/
structure Application where
  id : String
  applicantId : String
  applicantName : String
  applicantEmail : String
  applicantAvatar : Option String
  applicantColor : Option String
  projectId : String
  projectName : String
  position : String
  skills : List String
  message : String
  status : ApplicationStatus
  hasResume : Bool
  resumeUrl : Option String
  userDetails : Option PublicProfile
  appliedDate : String
  reviewedAt : Option String
  reviewedBy : Option String
  rejectionReason : Option String
deriving DecidableEq, Repr

namespace Application

/-- `Application.prototype.isPending`. -/
def isPending (a : Application) : Bool :=
  a.status == ApplicationStatus.pending

/-- `Application.prototype.accept(reviewerId)`; the current time
(`new Date().toISOString()`) is passed explicitly as `now`. -/
def accept (a : Application) (reviewerId now : String) :
    Except String Application :=
  if !a.isPending then
    Except.error "Can only accept pending applications"
  else
    Except.ok { a with
      status := ApplicationStatus.accepted
      reviewedAt := some now
      reviewedBy := some reviewerId }

/-- `Application.prototype.reject(reviewerId, reason)`. -/
def reject (a : Application) (reviewerId : String) (reason : Option String)
    (now : String) : Except String Application :=
  if !a.isPending then
    Except.error "Can only reject pending applications"
  else
    Except.ok { a with
      status := ApplicationStatus.rejected
      reviewedAt := some now
      reviewedBy := some reviewerId
      rejectionReason := reason }

/-- `Application.prototype.withdraw()`. -/
def withdraw (a : Application) : Except String Application :=
  if !a.isPending then
    Except.error "Can only withdraw pending applications"
  else
    Except.ok { a with status := ApplicationStatus.withdrawn }

/-- `Application.validate(data)` error list, in push order. -/
def validateErrors (applicantId projectId position message : String) :
    List String :=
  (if applicantId = "" then ["Applicant ID is required"] else []) ++
  (if projectId = "" then ["Project ID is required"] else []) ++
  (if (jsTrim position).length = 0 then ["Position is required"] else []) ++
  (if 2000 < message.length then
    ["Message must be less than 2000 characters"] else [])

end Application

/-- A minimal JSON value type for modelling serialized API objects. -/
inductive Json
  | null
  | str (s : String)
  | num (n : Nat)
  | bool (b : Bool)
  | arr (l : List Json)
  | obj (l : List (String × Json))

/-- Serialize an `Option String` (`null` in JS when absent). -/
def optJson : Option String → Json
  | none => Json.null
  | some s => Json.str s

/-- User entity (constructor field list of entities/User.js).  `password`
is nullable (`password = null` default). -/
structure User where
  id : String
  name : String
  email : String
  password : Option String
  avatar : Option String
  bio : String
  role : String
  status : String
  skills : List String
  socialLinks : List (String × String)
  createdAt : String
  updatedAt : String
deriving DecidableEq, Repr

namespace User

/-- `User.VALID_ROLES` in entities/User.js. -/
def VALID_ROLES : List String := ["user", "admin", "moderator"]

/-- `User.VALID_STATUSES` in entities/User.js. -/
def VALID_STATUSES : List String := ["active", "inactive", "suspended"]

/-- The JS email regex `^[^\s@]+@[^\s@]+\.[^\s@]+$` from
`User.isValidEmail`: one `@`, a nonempty whitespace-free local part, and a
domain part containing a `.` that is neither its first nor its last
character. -/
def isValidEmail (email : String) : Bool :=
  match splitOnChar '@' email.data with
  | [localPart, domain] =>
    !localPart.isEmpty && !domain.isEmpty &&
    localPart.all (fun c => !c.isWhitespace) &&
    domain.all (fun c => !c.isWhitespace) &&
    ((domain.drop 1).dropLast).contains '.'
  | _ => false

/-- `User.prototype.validate` error list, in push order (name, email, bio,
role, status). -/
def validateErrors (u : User) : List String :=
  (if u.name = "" then ["Name is required"]
   else if (jsTrim u.name).length < 2 then
     ["Name must be at least 2 characters long"]
   else if 100 < (jsTrim u.name).length then
     ["Name must be less than 100 characters"]
   else []) ++
  (if u.email = "" then ["Email is required"]
   else if !isValidEmail u.email then ["Invalid email format"]
   else []) ++
  (if 500 < u.bio.length then ["Bio must be less than 500 characters"]
   else []) ++
  (if !VALID_ROLES.contains u.role then
     ["Invalid role. Must be one of: " ++ String.intercalate ", " VALID_ROLES]
   else []) ++
  (if !VALID_STATUSES.contains u.status then
     ["Invalid status. Must be one of: " ++
       String.intercalate ", " VALID_STATUSES]
   else [])

/-- `User.prototype.toJSON` — the explicit field list serialized for API
responses (excludes `password`). -/
def toJSON (u : User) : List (String × Json) :=
  [("id", Json.str u.id),
   ("name", Json.str u.name),
   ("email", Json.str u.email),
   ("avatar", optJson u.avatar),
   ("bio", Json.str u.bio),
   ("role", Json.str u.role),
   ("status", Json.str u.status),
   ("skills", Json.arr (u.skills.map Json.str)),
   ("socialLinks", Json.obj (u.socialLinks.map fun p => (p.1, Json.str p.2))),
   ("createdAt", Json.str u.createdAt),
   ("updatedAt", Json.str u.updatedAt)]

/-- `User.prototype.toPublicProfile`. -/
def toPublicProfile (u : User) : PublicProfile :=
  { id := u.id, name := u.name, avatar := u.avatar, bio := u.bio
    skills := u.skills, socialLinks := u.socialLinks }

end User

/-- Raw user data as accepted by `models/User.js` (the direct model
variant); `password` is carried by registration input but, per the model's
constructor and `create`, never stored on the model instance. -/
structure MUserData where
  name : String
  email : String
  password : String
  avatar : Option String
  bio : String
  role : String
  status : String
  skills : List String
  experience : String
  location : String
  title : String
  githubUrl : String
  linkedinUrl : String
  portfolioUrl : String
deriving DecidableEq, Repr

/-- The user record built by `models/User.js` — its constructor stores no
password field at all. -/
structure MUser where
  id : String
  name : String
  email : String
  avatar : Option String
  bio : String
  role : String
  status : String
  skills : List String
  experience : String
  location : String
  title : String
  githubUrl : String
  linkedinUrl : String
  portfolioUrl : String
  createdAt : String
  updatedAt : String
deriving DecidableEq, Repr

namespace MUser

/-- `User.validate` of models/User.js, error list in push order.  The
`role`/`status` checks run only when the field is truthy (nonempty). -/
def validateErrors (d : MUserData) : List String :=
  (if d.name = "" then ["Name is required"]
   else if (jsTrim d.name).length < 2 then
     ["Name must be at least 2 characters long"]
   else if 100 < (jsTrim d.name).length then
     ["Name must be less than 100 characters"]
   else []) ++
  (if d.email = "" then ["Email is required"]
   else if !User.isValidEmail d.email then ["Invalid email format"]
   else []) ++
  (if 500 < d.bio.length then ["Bio must be less than 500 characters"]
   else []) ++
  (if d.role ≠ "" ∧
      (["user", "admin", "moderator"].contains d.role) = false then
     ["Invalid role specified"] else []) ++
  (if d.status ≠ "" ∧
      (["active", "inactive", "suspended"].contains d.status) = false then
     ["Invalid status specified"] else [])

/-- `User.validate` result (`{ isValid, errors }`). -/
def validate (d : MUserData) : Bool × List String :=
  ((validateErrors d).isEmpty, validateErrors d)

/-- `User.create` of models/User.js: note the field list — the input's
`password` is not among the stored fields. -/
def create (d : MUserData) (freshId now : String) : MUser :=
  { id := freshId
    name := jsTrim d.name
    email := jsTrim (jsToLower d.email)
    avatar := d.avatar
    bio := jsTrim d.bio
    role := if d.role = "" then "user" else d.role
    status := "active"
    skills := d.skills
    experience := d.experience
    location := jsTrim d.location
    title := jsTrim d.title
    githubUrl := jsTrim d.githubUrl
    linkedinUrl := jsTrim d.linkedinUrl
    portfolioUrl := jsTrim d.portfolioUrl
    createdAt := now
    updatedAt := now }

/-- `User.prototype.toJSON` of models/User.js — explicit field list,
without any password key. -/
def toJSON (u : MUser) : List (String × Json) :=
  [("id", Json.str u.id),
   ("name", Json.str u.name),
   ("email", Json.str u.email),
   ("avatar", optJson u.avatar),
   ("bio", Json.str u.bio),
   ("role", Json.str u.role),
   ("status", Json.str u.status),
   ("skills", Json.arr (u.skills.map Json.str)),
   ("experience", Json.str u.experience),
   ("location", Json.str u.location),
   ("title", Json.str u.title),
   ("githubUrl", Json.str u.githubUrl),
   ("linkedinUrl", Json.str u.linkedinUrl),
   ("portfolioUrl", Json.str u.portfolioUrl),
   ("createdAt", Json.str u.createdAt),
   ("updatedAt", Json.str u.updatedAt)]

end MUser

/-- `getRoleDisplayTitle` lookup table in api/controllers/userController.js. -/
def getRoleDisplayTitle (role : String) : String :=
  if role = "founder" then "The Founder"
  else if role = "professional" then "The Professional"
  else if role = "investor" then "The Investor"
  else if role = "student" then "The Student"
  else if role = "admin" then "Administrator"
  else if role = "moderator" then "Moderator"
  else if role = "user" then "Developer"
  else "Developer"

/-- `userController.createUser` response data (the serialized new user):
`successResponse(newUser, ...)` serializes via the model's `toJSON`.  The
default title is derived from the role when not supplied. -/
def createUserResponseData (d : MUserData) (freshId now : String) :
    List (String × Json) :=
  let title := if d.title = "" then
      getRoleDisplayTitle (if d.role = "" then "user" else d.role)
    else d.title
  MUser.toJSON (MUser.create { d with title := title } freshId now)

/-- `userController.loginUser` response user object: `user.toJSON()`. -/
def loginUserResponseData (u : MUser) : List (String × Json) :=
  MUser.toJSON u

/-- A concrete pending application used to instantiate theorems. -/
def pendingApp : Application :=
  { id := "app_1", applicantId := "user_b", applicantName := "Bea"
    applicantEmail := "bea@example.com", applicantAvatar := none
    applicantColor := none, projectId := "proj_1", projectName := "Demo"
    position := "Engineer", skills := ["lean"], message := "hi there"
    status := ApplicationStatus.pending, hasResume := false, resumeUrl := none
    userDetails := none, appliedDate := "2024-01-01", reviewedAt := none
    reviewedBy := none, rejectionReason := none }

/-- The same application already accepted (a terminal state). -/
def acceptedApp : Application :=
  { pendingApp with status := ApplicationStatus.accepted }

/-- A concrete user passing all entity validation checks. -/
def validUserBase : User :=
  { id := "user_1", name := "Alice", email := "alice@example.com"
    password := none, avatar := none, bio := "", role := "user"
    status := "active", skills := [], socialLinks := []
    createdAt := "t0", updatedAt := "t0" }

/-- Concrete registration input passing all model validation checks. -/
def validUserData : MUserData :=
  { name := "Alice", email := "alice@example.com", password := "secret123"
    avatar := none, bio := "", role := "user", status := "", skills := []
    experience := "", location := "", title := "", githubUrl := ""
    linkedinUrl := "", portfolioUrl := "" }

/-- Team member entry of a project's `teamMembers` list.  `joinedAt` is
optional: the founder seeded at creation carries no `joinedAt`, while
`Project.addTeamMember` stamps one. -/
structure TeamMember where
  id : String
  name : String
  role : String
  avatar : Option String
  email : String
  joinedAt : Option String
deriving DecidableEq, Repr

/-- Open position entry (`{ role, skills, isPaid }`). -/
structure OpenPosition where
  role : String
  skills : List String
  isPaid : Bool
deriving DecidableEq, Repr

/-- Project entity (constructor field list of entities/Project.js). -/
structure Project where
  id : String
  title : String
  description : String
  stage : String
  industry : String
  requiredSkills : List String
  teamMembers : List TeamMember
  openPositions : List OpenPosition
  funding : String
  applications : Nat
  ownerId : String
  createdAt : String
  updatedAt : String
deriving DecidableEq, Repr

/-- Input accepted by `Project.validate` / `CreateProjectUseCase.execute`. -/
structure ProjectInput where
  title : String
  description : String
  stage : String
  industry : String
  requiredSkills : List String
  openPositions : List OpenPosition
  funding : String
  ownerId : String
deriving DecidableEq, Repr

/-- Optional-field update record for `Project.prototype.update`
(`undefined` fields are skipped). -/
structure ProjectUpdate where
  title : Option String
  description : Option String
  stage : Option String
  industry : Option String
  requiredSkills : Option (List String)
  openPositions : Option (List OpenPosition)
  funding : Option String
deriving DecidableEq, Repr

namespace Project

/-- `Project.STAGES` values. -/
def STAGES : List String := ["idea", "prototype", "mvp", "growth", "scaling"]

/-- `Project.prototype.isOwner`. -/
def isOwner (p : Project) (userId : String) : Bool :=
  p.ownerId == userId

/-- `Project.prototype.isTeamMember`. -/
def isTeamMember (p : Project) (userId : String) : Bool :=
  p.teamMembers.any (fun m => m.id == userId)

/-- `Project.prototype.addTeamMember`: rejects an id already on the team,
otherwise pushes the member with a `joinedAt` stamp. -/
def addTeamMember (p : Project) (m : TeamMember) (now : String) :
    Except String Project :=
  if p.teamMembers.any (fun x => x.id == m.id) then
    Except.error "User is already a team member"
  else
    Except.ok { p with
      teamMembers := p.teamMembers ++ [{ m with joinedAt := some now }]
      updatedAt := now }

/-- `Project.prototype.removeTeamMember`: refuses to remove the owner;
`findIndex` returning `-1` is the not-found error; the `splice` at the
found index removes the first entry matching the id (`List.eraseP`). -/
def removeTeamMember (p : Project) (memberId now : String) :
    Except String Project :=
  if memberId == p.ownerId then
    Except.error "Cannot remove the project owner"
  else if !(p.teamMembers.any (fun m => m.id == memberId)) then
    Except.error "Team member not found"
  else
    Except.ok { p with
      teamMembers := p.teamMembers.eraseP (fun m => m.id == memberId)
      updatedAt := now }

/-- `Project.prototype.updateStage`. -/
def updateStage (p : Project) (newStage now : String) :
    Except String Project :=
  if !(STAGES.contains newStage) then
    Except.error ("Invalid stage. Must be one of: " ++
      String.intercalate ", " STAGES)
  else
    Except.ok { p with stage := newStage, updatedAt := now }

/-- `Project.prototype.incrementApplications`. -/
def incrementApplications (p : Project) (now : String) : Project :=
  { p with applications := p.applications + 1, updatedAt := now }

/-- `Project.prototype.update`: whitelisted fields only (`teamMembers`,
`applications` and `ownerId` are not updatable); string fields trimmed. -/
def update (p : Project) (d : ProjectUpdate) (now : String) : Project :=
  { p with
    title := match d.title with | some t => jsTrim t | none => p.title
    description :=
      match d.description with | some s => jsTrim s | none => p.description
    stage := match d.stage with | some s => jsTrim s | none => p.stage
    industry := match d.industry with | some s => jsTrim s | none => p.industry
    requiredSkills :=
      match d.requiredSkills with | some l => l | none => p.requiredSkills
    openPositions :=
      match d.openPositions with | some l => l | none => p.openPositions
    funding := match d.funding with | some s => jsTrim s | none => p.funding
    updatedAt := now }

/-- `Project.validate` error list, in push order (title, description,
stage, industry, owner, open positions). -/
def validateErrors (d : ProjectInput) : List String :=
  (if d.title = "" then ["Title is required"]
   else if (jsTrim d.title).length < 3 then
     ["Title must be at least 3 characters long"]
   else if 100 < (jsTrim d.title).length then
     ["Title must be less than 100 characters"]
   else []) ++
  (if d.description = "" then ["Description is required"]
   else if (jsTrim d.description).length < 10 then
     ["Description must be at least 10 characters long"]
   else if 2000 < (jsTrim d.description).length then
     ["Description must be less than 2000 characters"]
   else []) ++
  (if d.stage ≠ "" ∧ (STAGES.contains d.stage) = false then
     ["Invalid stage. Must be one of: " ++ String.intercalate ", " STAGES]
   else []) ++
  (if d.industry = "" then ["Industry is required"] else []) ++
  (if d.ownerId = "" then ["Owner ID is required"] else []) ++
  (d.openPositions.enum.filterMap fun pos =>
    if pos.2.role = "" then
      some ("Position " ++ toString (pos.1 + 1) ++ ": Role is required")
    else none)

/-- `Project.create`: fresh id, trimmed strings, defaulted stage and
funding, zero applications; the team-member seed is supplied by the
caller (`CreateProjectUseCase`). -/
def create (d : ProjectInput) (teamMembers : List TeamMember)
    (freshId now : String) : Project :=
  { id := freshId
    title := jsTrim d.title
    description := jsTrim d.description
    stage := if d.stage = "" then "idea" else d.stage
    industry := d.industry
    requiredSkills := d.requiredSkills
    teamMembers := teamMembers
    openPositions := d.openPositions
    funding := if d.funding = "" then "Not Funded" else d.funding
    applications := 0
    ownerId := d.ownerId
    createdAt := now
    updatedAt := now }

end Project

/-- Error names (`error.name` strings assigned by the use cases;
`plainError` is a bare `throw new Error(...)`). -/
inductive ErrName
  | validationError
  | notFoundError
  | conflictError
  | forbiddenError
  | authorizationError
  | plainError
deriving DecidableEq, Repr

/-- A thrown error: name and message. -/
structure Err where
  name : ErrName
  message : String
deriving DecidableEq, Repr

/-- The in-memory store backing the three repositories: lists of records
with unique ids model the `Map`s of the in-memory repositories. -/
structure AppState where
  users : List User
  projects : List Project
  applications : List Application
deriving DecidableEq, Repr

/-- `userRepository.findById`. -/
def findUser (st : AppState) (id : String) : Option User :=
  st.users.find? (fun u => u.id == id)

/-- `projectRepository.findById`. -/
def findProject (st : AppState) (id : String) : Option Project :=
  st.projects.find? (fun p => p.id == id)

/-- `applicationRepository.findById`. -/
def findApplication (st : AppState) (id : String) : Option Application :=
  st.applications.find? (fun a => a.id == id)

/-- `Map.set` on a present key: replace the record stored under `k`. -/
def updateById {α : Type} (key : α → String) (k : String) (b : α)
    (l : List α) : List α :=
  l.map fun x => if key x == k then b else x

/-- `InMemoryApplicationRepository.exists`: some application by the
applicant to the project whose status is not `withdrawn`. -/
def applicationExists (apps : List Application)
    (applicantId projectId : String) : Bool :=
  apps.any fun app =>
    app.applicantId == applicantId && app.projectId == projectId &&
    !(app.status == ApplicationStatus.withdrawn)

/-- `InMemoryProjectRepository.existsByTitleAndOwner` (with the default
`excludeId = null`, under which the `p.id !== excludeId` conjunct is
always true for string ids). -/
def existsByTitleAndOwner (projects : List Project)
    (title ownerId : String) : Bool :=
  projects.any fun p =>
    jsToLower p.title == jsToLower title && p.ownerId == ownerId

/-- Input of `CreateApplicationUseCase.execute`. -/
structure CreateApplicationInput where
  applicantId : String
  projectId : String
  position : String
  skills : List String
  message : String
  resumeUrl : Option String
deriving DecidableEq, Repr

/-- `CreateApplicationUseCase.execute` over the in-memory repositories:
validate, look up project and applicant, reject members/owners and
duplicate (non-withdrawn) applications, then persist the new pending
application and increment the project's application counter.  The fresh
application id and the current time are passed explicitly. -/
def CreateApplicationUseCase.execute (input : CreateApplicationInput)
    (freshId now : String) (st : AppState) :
    Except Err Application × AppState :=
  let errs := Application.validateErrors input.applicantId input.projectId
    input.position input.message
  if errs.isEmpty = false then
    (Except.error ⟨ErrName.validationError, String.intercalate ", " errs⟩, st)
  else
    match findProject st input.projectId with
    | none => (Except.error ⟨ErrName.notFoundError, "Project not found"⟩, st)
    | some project =>
      match findUser st input.applicantId with
      | none =>
        (Except.error ⟨ErrName.notFoundError, "Applicant not found"⟩, st)
      | some applicant =>
        if project.isTeamMember input.applicantId ||
            project.isOwner input.applicantId then
          (Except.error ⟨ErrName.conflictError,
            "You are already part of this project"⟩, st)
        else if applicationExists st.applications input.applicantId
            input.projectId then
          (Except.error ⟨ErrName.conflictError,
            "You have already applied to this project"⟩, st)
        else
          let application : Application :=
            { id := freshId
              applicantId := input.applicantId
              applicantName := applicant.name
              applicantEmail := applicant.email
              applicantAvatar := applicant.avatar
              applicantColor := none
              projectId := input.projectId
              projectName := project.title
              position := input.position
              skills := input.skills
              message := input.message
              status := ApplicationStatus.pending
              hasResume := input.resumeUrl.isSome
              resumeUrl := input.resumeUrl
              userDetails := some applicant.toPublicProfile
              appliedDate := now
              reviewedAt := none
              reviewedBy := none
              rejectionReason := none }
          let st1 :=
            { st with applications := st.applications ++ [application] }
          match findProject st1 input.projectId with
          | none => (Except.error ⟨ErrName.plainError, "Project not found"⟩, st1)
          | some proj =>
            let projects2 := updateById Project.id input.projectId
              (proj.incrementApplications now) st1.projects
            (Except.ok application, { st1 with projects := projects2 })

/-- `AcceptApplicationUseCase.execute`: look up the application, its
project and the applicant, enforce owner-only and pending-only, persist
the accepted application, then add the applicant to the project team
(second repository write). -/
def AcceptApplicationUseCase.execute (applicationId reviewerId now : String)
    (st : AppState) : Except Err Application × AppState :=
  match findApplication st applicationId with
  | none =>
    (Except.error ⟨ErrName.notFoundError, "Application not found"⟩, st)
  | some application =>
    match findProject st application.projectId with
    | none => (Except.error ⟨ErrName.notFoundError, "Project not found"⟩, st)
    | some project =>
      if !project.isOwner reviewerId then
        (Except.error ⟨ErrName.forbiddenError,
          "Only project owner can accept applications"⟩, st)
      else if !application.isPending then
        (Except.error ⟨ErrName.conflictError,
          "Application has already been processed"⟩, st)
      else
        match findUser st application.applicantId with
        | none =>
          (Except.error ⟨ErrName.notFoundError, "Applicant not found"⟩, st)
        | some applicant =>
          match application.accept reviewerId now with
          | Except.error m => (Except.error ⟨ErrName.plainError, m⟩, st)
          | Except.ok accepted =>
            let apps2 := updateById Application.id applicationId accepted
              st.applications
            let st1 := { st with applications := apps2 }
            match findProject st1 project.id with
            | none =>
              (Except.error ⟨ErrName.plainError, "Project not found"⟩, st1)
            | some proj =>
              match proj.addTeamMember
                  { id := applicant.id, name := applicant.name
                    role := application.position, avatar := applicant.avatar
                    email := applicant.email, joinedAt := none } now with
              | Except.error m => (Except.error ⟨ErrName.plainError, m⟩, st1)
              | Except.ok proj2 =>
                let projects2 := updateById Project.id proj.id proj2
                  st1.projects
                (Except.ok accepted, { st1 with projects := projects2 })

/-- `RejectApplicationUseCase.execute`. -/
def RejectApplicationUseCase.execute (applicationId reviewerId : String)
    (reason : Option String) (now : String) (st : AppState) :
    Except Err Application × AppState :=
  match findApplication st applicationId with
  | none =>
    (Except.error ⟨ErrName.notFoundError, "Application not found"⟩, st)
  | some application =>
    match findProject st application.projectId with
    | none => (Except.error ⟨ErrName.notFoundError, "Project not found"⟩, st)
    | some project =>
      if !project.isOwner reviewerId then
        (Except.error ⟨ErrName.forbiddenError,
          "Only project owner can reject applications"⟩, st)
      else if !application.isPending then
        (Except.error ⟨ErrName.conflictError,
          "Application has already been processed"⟩, st)
      else
        match application.reject reviewerId reason now with
        | Except.error m => (Except.error ⟨ErrName.plainError, m⟩, st)
        | Except.ok rejected =>
          let apps2 := updateById Application.id applicationId rejected
            st.applications
          (Except.ok rejected, { st with applications := apps2 })

/-- `WithdrawApplicationUseCase.execute`. -/
def WithdrawApplicationUseCase.execute (applicationId applicantId : String)
    (st : AppState) : Except Err Application × AppState :=
  match findApplication st applicationId with
  | none =>
    (Except.error ⟨ErrName.notFoundError, "Application not found"⟩, st)
  | some application =>
    if application.applicantId ≠ applicantId then
      (Except.error ⟨ErrName.forbiddenError,
        "Only applicant can withdraw their application"⟩, st)
    else if !application.isPending then
      (Except.error ⟨ErrName.conflictError,
        "Application has already been processed"⟩, st)
    else
      match application.withdraw with
      | Except.error m => (Except.error ⟨ErrName.plainError, m⟩, st)
      | Except.ok withdrawn =>
        let apps2 := updateById Application.id applicationId withdrawn
          st.applications
        (Except.ok withdrawn, { st with applications := apps2 })

/-- `CreateProjectUseCase.execute`: owner must exist, no duplicate title
for the same owner, input must validate; the owner is seeded as the sole
`Founder` team member of the created project. -/
def CreateProjectUseCase.execute (input : ProjectInput)
    (freshId now : String) (st : AppState) : Except Err Project × AppState :=
  match findUser st input.ownerId with
  | none => (Except.error ⟨ErrName.plainError, "Owner not found"⟩, st)
  | some owner =>
    if existsByTitleAndOwner st.projects input.title input.ownerId then
      (Except.error ⟨ErrName.plainError,
        "You already have a project with this title"⟩, st)
    else
      let errs := Project.validateErrors input
      if errs.isEmpty = false then
        (Except.error ⟨ErrName.validationError,
          String.intercalate ", " errs⟩, st)
      else
        let project := Project.create input
          [{ id := owner.id, name := owner.name, role := "Founder"
             avatar := owner.avatar, email := owner.email
             joinedAt := none }] freshId now
        (Except.ok project,
          { st with projects := st.projects ++ [project] })

/-- `AddTeamMemberUseCase.execute`: owner-only. -/
def AddTeamMemberUseCase.execute (projectId memberId role requesterId
    now : String) (st : AppState) : Except Err Project × AppState :=
  match findProject st projectId with
  | none => (Except.error ⟨ErrName.notFoundError, "Project not found"⟩, st)
  | some project =>
    if project.ownerId ≠ requesterId then
      (Except.error ⟨ErrName.authorizationError,
        "Not authorized to add team members"⟩, st)
    else
      match findUser st memberId with
      | none => (Except.error ⟨ErrName.notFoundError, "User not found"⟩, st)
      | some member =>
        match project.addTeamMember
            { id := member.id, name := member.name, role := role
              avatar := member.avatar, email := member.email
              joinedAt := none } now with
        | Except.error m => (Except.error ⟨ErrName.plainError, m⟩, st)
        | Except.ok proj2 =>
          let projects2 := updateById Project.id project.id proj2 st.projects
          (Except.ok proj2, { st with projects := projects2 })

/-- `RemoveTeamMemberUseCase.execute`: the owner or the member themselves
may remove; the owner entry itself can never be removed. -/
def RemoveTeamMemberUseCase.execute (projectId memberId requesterId
    now : String) (st : AppState) : Except Err Project × AppState :=
  match findProject st projectId with
  | none => (Except.error ⟨ErrName.notFoundError, "Project not found"⟩, st)
  | some project =>
    let isOwner := project.ownerId == requesterId
    let isSelf := memberId == requesterId
    if !isOwner && !isSelf then
      (Except.error ⟨ErrName.authorizationError,
        "Not authorized to remove this team member"⟩, st)
    else if memberId == project.ownerId then
      (Except.error ⟨ErrName.validationError,
        "Cannot remove the project owner"⟩, st)
    else
      match project.removeTeamMember memberId now with
      | Except.error m => (Except.error ⟨ErrName.plainError, m⟩, st)
      | Except.ok proj2 =>
        let projects2 := updateById Project.id project.id proj2 st.projects
        (Except.ok proj2, { st with projects := projects2 })

/-- Pagination metadata attached by `paginate` in utils/helpers.js. -/
structure Pagination where
  currentPage : Nat
  totalPages : Nat
  totalItems : Nat
  itemsPerPage : Nat
  hasNextPage : Bool
  hasPrevPage : Bool
deriving DecidableEq, Repr

/-- `paginate` result (`{ data, pagination }`). -/
structure Paginated (α : Type) where
  data : List α
  pagination : Pagination
deriving DecidableEq, Repr

/-- `paginate(array, page, limit)` of utils/helpers.js:
`slice(startIndex, endIndex)` with `startIndex = (page-1)*limit`;
`Math.ceil(total/limit)` is `(total + limit - 1) / limit` on naturals for
positive `limit`. -/
def paginate {α : Type} (array : List α) (page limit : Nat) : Paginated α :=
  let startIdx := (page - 1) * limit
  let total := array.length
  let totalPages := (total + limit - 1) / limit
  { data := (array.drop startIdx).take limit
    pagination :=
      { currentPage := page
        totalPages := totalPages
        totalItems := total
        itemsPerPage := limit
        hasNextPage := decide (page < totalPages)
        hasPrevPage := decide (1 < page) } }

/-- The founder entry of the demo project. -/
def founderTM : TeamMember :=
  { id := "user_1", name := "Alice", role := "Founder", avatar := none
    email := "alice@example.com", joinedAt := none }

/-- A non-owner member entry of the demo project. -/
def beaTM : TeamMember :=
  { id := "user_b", name := "Bea", role := "Engineer", avatar := none
    email := "bea@example.com", joinedAt := none }

/-- A second registered user. -/
def beaUser : User :=
  { validUserBase with
      id := "user_b"
      name := "Bea"
      email := "bea@example.com" }

/-- A third registered user who is not on the demo team. -/
def carolUser : User :=
  { validUserBase with
      id := "user_c"
      name := "Carol"
      email := "carol@example.com" }

/-- Demo project owned by `user_1` with `user_b` on the team. -/
def demoProject : Project :=
  { id := "proj_1", title := "Demo Project"
    description := "A demo project for tests", stage := "idea"
    industry := "Software", requiredSkills := [], teamMembers := [founderTM, beaTM]
    openPositions := [], funding := "Not Funded", applications := 0
    ownerId := "user_1", createdAt := "t0", updatedAt := "t0" }

/-- The pending demo application, re-keyed to `user_c`. -/
def carolPendingApp : Application :=
  { pendingApp with
      applicantId := "user_c"
      applicantName := "Carol"
      applicantEmail := "carol@example.com" }

/-- Demo store holding the three users, the demo project and one pending
application by `user_c`. -/
def demoState : AppState :=
  { users := [validUserBase, beaUser, carolUser]
    projects := [demoProject]
    applications := [carolPendingApp] }

/-- The demo application after `user_c` withdrew it. -/
def withdrawnCarolApp : Application :=
  { carolPendingApp with status := ApplicationStatus.withdrawn }

/-- The demo store after `user_c` withdrew the application. -/
def withdrawnState : AppState :=
  { demoState with applications := [withdrawnCarolApp] }

/-- Input for a fresh demo project creation. -/
def demoProjectInput : ProjectInput :=
  { title := "New Venture", description := "A brand new venture"
    stage := "", industry := "Software", requiredSkills := []
    openPositions := [], funding := "", ownerId := "user_1" }

/-- The project built by `CreateProjectUseCase` from `demoProjectInput`. -/
def createdDemoProject : Project :=
  Project.create demoProjectInput [founderTM] "proj_9" "t1"

/-- The demo store extended with the created project. -/
def createdDemoState : AppState :=
  { demoState with projects := demoState.projects ++ [createdDemoProject] }

/-- The demo project after `user_b` left the team. -/
def demoProjectAfterSelfRemoval : Project :=
  { demoProject with
      teamMembers := [founderTM]
      updatedAt := "t1" }

/-- The owner-membership invariant of C5: some team-member entry carries
the owner's id. -/
def ownerOnTeam (p : Project) : Prop :=
  ∃ m ∈ p.teamMembers, m.id = p.ownerId

/-- An element not matched by the predicate survives `eraseP`. -/
theorem mem_eraseP_of_pred_false {α : Type} {p : α → Bool} {l : List α}
    {a : α} (h : a ∈ l) (hp : p a = false) : a ∈ l.eraseP p := by
  induction l with
  | nil => cases h
  | cons x xs ih =>
    rw [List.eraseP_cons]
    rcases List.mem_cons.1 h with rfl | hmem
    · simp [hp]
    · by_cases hx : p x
      · simp [hx, hmem]
      · have hx' : p x = false := by simpa using hx
        simp only [hx', cond_false, List.mem_cons]
        exact Or.inr (ih hmem)

/-- Replacing the record stored under a key makes the keyed lookup return
the replacement. -/
theorem find?_updateById {α : Type} {key : α → String} {k : String}
    {b : α} {l : List α} {a : α}
    (h : l.find? (fun x => key x == k) = some a) (hb : (key b == k) = true) :
    (updateById key k b l).find? (fun x => key x == k) = some b := by
  induction l with
  | nil => simp at h
  | cons x xs ih =>
    by_cases hx : (key x == k) = true
    · simp only [updateById, List.map_cons, hx, if_true]
      exact List.find?_cons_of_pos _ hb
    · have hx' : (key x == k) = false := Bool.eq_false_iff.mpr hx
      rw [List.find?_cons_of_neg _ (by simp [hx'])] at h
      simp only [updateById, List.map_cons, hx', Bool.false_eq_true, if_false]
      rw [List.find?_cons_of_neg _ (by simp [hx'])]
      exact ih h

/-- C1: the only status transitions of an application are
`pending → accepted`, `pending → rejected` and `pending → withdrawn`;
on a non-pending application `accept`, `reject` and `withdraw` all fail
with an error (so the terminal states are terminal and, the operations
being modelled as pure, the application is left unchanged). -/
theorem application_transitions_only_from_pending
    (a : Application) (reviewerId applicantId applicationId : String)
    (reason : Option String) (now : String) (st : AppState) :
    (a.status ≠ ApplicationStatus.pending →
      (a.accept reviewerId now =
        Except.error "Can only accept pending applications") ∧
      (a.reject reviewerId reason now =
        Except.error "Can only reject pending applications") ∧
      (a.withdraw =
        Except.error "Can only withdraw pending applications")) ∧
    (∀ a', a.accept reviewerId now = Except.ok a' →
      a.status = ApplicationStatus.pending ∧
      a'.status = ApplicationStatus.accepted) ∧
    (∀ a', a.reject reviewerId reason now = Except.ok a' →
      a.status = ApplicationStatus.pending ∧
      a'.status = ApplicationStatus.rejected) ∧
    (∀ a', a.withdraw = Except.ok a' →
      a.status = ApplicationStatus.pending ∧
      a'.status = ApplicationStatus.withdrawn) ∧
    (findApplication st applicationId = some a →
      a.status ≠ ApplicationStatus.pending →
      (∃ e, AcceptApplicationUseCase.execute applicationId reviewerId now
        st = (Except.error e, st)) ∧
      (∃ e, RejectApplicationUseCase.execute applicationId reviewerId
        reason now st = (Except.error e, st)) ∧
      (∃ e, WithdrawApplicationUseCase.execute applicationId applicantId
        st = (Except.error e, st))) := by
  refine ⟨fun hne => ?_, fun a' h => ?_, fun a' h => ?_, fun a' h => ?_,
    fun ha hne => ?_⟩
  · have hb : a.isPending = false := by
      simp [Application.isPending, hne]
    simp [Application.accept, Application.reject, Application.withdraw, hb]
  · by_cases hp : a.isPending
    · have : a.status = ApplicationStatus.pending := by
        simpa [Application.isPending] using hp
      refine ⟨this, ?_⟩
      simp only [Application.accept, hp, Bool.not_true, Bool.false_eq_true,
        if_false, Except.ok.injEq] at h
      simp [← h]
    · simp [Application.accept, Bool.eq_false_iff.mpr hp] at h
  · by_cases hp : a.isPending
    · have : a.status = ApplicationStatus.pending := by
        simpa [Application.isPending] using hp
      refine ⟨this, ?_⟩
      simp only [Application.reject, hp, Bool.not_true, Bool.false_eq_true,
        if_false, Except.ok.injEq] at h
      simp [← h]
    · simp [Application.reject, Bool.eq_false_iff.mpr hp] at h
  · by_cases hp : a.isPending
    · have : a.status = ApplicationStatus.pending := by
        simpa [Application.isPending] using hp
      refine ⟨this, ?_⟩
      simp only [Application.withdraw, hp, Bool.not_true, Bool.false_eq_true,
        if_false, Except.ok.injEq] at h
      simp [← h]
    · simp [Application.withdraw, Bool.eq_false_iff.mpr hp] at h
  · have hpendb : a.isPending = false := by
      simp [Application.isPending, hne]
    refine ⟨?_, ?_, ?_⟩
    · unfold AcceptApplicationUseCase.execute
      rw [ha]
      cases hpr : findProject st a.projectId with
      | none => exact ⟨⟨ErrName.notFoundError, "Project not found"⟩,
          by simp [hpr]⟩
      | some proj =>
        by_cases ho : proj.isOwner reviewerId = true
        · exact ⟨⟨ErrName.conflictError,
            "Application has already been processed"⟩,
            by simp [hpr, ho, hpendb]⟩
        · have ho2 := Bool.eq_false_iff.mpr ho
          exact ⟨⟨ErrName.forbiddenError,
            "Only project owner can accept applications"⟩,
            by simp [hpr, ho2]⟩
    · unfold RejectApplicationUseCase.execute
      rw [ha]
      cases hpr : findProject st a.projectId with
      | none => exact ⟨⟨ErrName.notFoundError, "Project not found"⟩,
          by simp [hpr]⟩
      | some proj =>
        by_cases ho : proj.isOwner reviewerId = true
        · exact ⟨⟨ErrName.conflictError,
            "Application has already been processed"⟩,
            by simp [hpr, ho, hpendb]⟩
        · have ho2 := Bool.eq_false_iff.mpr ho
          exact ⟨⟨ErrName.forbiddenError,
            "Only project owner can reject applications"⟩,
            by simp [hpr, ho2]⟩
    · unfold WithdrawApplicationUseCase.execute
      rw [ha]
      by_cases hap : a.applicantId = applicantId
      · exact ⟨⟨ErrName.conflictError,
          "Application has already been processed"⟩,
          by simp [hap, hpendb]⟩
      · exact ⟨⟨ErrName.forbiddenError,
          "Only applicant can withdraw their application"⟩,
          by simp [hap]⟩

/-- Witness for C1 at concrete inputs: on the already-accepted demo
application the entity operations fail, and on the withdrawn stored
application all three use cases fail leaving the store unchanged. -/
theorem application_transitions_only_from_pending_witness :
    (acceptedApp.accept "user_a" "t1" =
      Except.error "Can only accept pending applications") ∧
    (acceptedApp.withdraw =
      Except.error "Can only withdraw pending applications") ∧
    (∃ e, AcceptApplicationUseCase.execute "app_1" "user_1" "t1"
      withdrawnState = (Except.error e, withdrawnState)) ∧
    (∃ e, WithdrawApplicationUseCase.execute "app_1" "user_c"
      withdrawnState = (Except.error e, withdrawnState)) := by
  have h1 := application_transitions_only_from_pending acceptedApp "user_a"
    "user_a" "app_x" none "t1" demoState
  have h2 := application_transitions_only_from_pending withdrawnCarolApp
    "user_1" "user_c" "app_1" none "t1" withdrawnState
  have h3 := h2.2.2.2.2 (by decide) (by decide)
  exact ⟨(h1.1 (by decide)).1, (h1.1 (by decide)).2.2, h3.1, h3.2.2⟩

/-- C10: on a pending application, `accept` changes only `status`,
`reviewedAt` and `reviewedBy`, and `reject` changes only `status`,
`reviewedAt`, `reviewedBy` and `rejectionReason`; every other field is
unchanged. -/
theorem application_accept_reject_frame
    (a : Application) (reviewerId : String) (reason : Option String)
    (now : String) (h : a.status = ApplicationStatus.pending) :
    (a.accept reviewerId now = Except.ok
      { a with status := ApplicationStatus.accepted
               reviewedAt := some now
               reviewedBy := some reviewerId }) ∧
    (a.reject reviewerId reason now = Except.ok
      { a with status := ApplicationStatus.rejected
               reviewedAt := some now
               reviewedBy := some reviewerId
               rejectionReason := reason }) := by
  have hp : a.isPending = true := by simp [Application.isPending, h]
  constructor
  · simp [Application.accept, hp]
  · simp [Application.reject, hp]

/-- Witness for C10 at a concrete pending application. -/
theorem application_accept_reject_frame_witness :
    pendingApp.accept "user_a" "t1" = Except.ok
      { pendingApp with status := ApplicationStatus.accepted
                        reviewedAt := some "t1"
                        reviewedBy := some "user_a" } :=
  (application_accept_reject_frame pendingApp "user_a" none "t1" rfl).1

/-- C4: no read path of the user API serializes a password: the key
`"password"` is absent from the domain entity's `toJSON`, from the model's
`toJSON`, and from the register and login controller responses; moreover
the register response is entirely independent of the submitted plaintext
password. -/
theorem user_api_password_never_serialized :
    (∀ u : User, "password" ∉ (User.toJSON u).map Prod.fst) ∧
    (∀ u : MUser, "password" ∉ (MUser.toJSON u).map Prod.fst) ∧
    (∀ (d : MUserData) (freshId now : String),
      "password" ∉ (createUserResponseData d freshId now).map Prod.fst) ∧
    (∀ (d : MUserData) (pw pw' freshId now : String),
      createUserResponseData { d with password := pw } freshId now =
        createUserResponseData { d with password := pw' } freshId now) ∧
    (∀ u : MUser, "password" ∉ (loginUserResponseData u).map Prod.fst) := by
  refine ⟨fun u => ?_, fun u => ?_, fun d freshId now => ?_,
    fun d pw pw' freshId now => rfl, fun u => ?_⟩
  · simp only [User.toJSON, List.map_cons, List.map_nil]
    decide
  · simp only [MUser.toJSON, List.map_cons, List.map_nil]
    decide
  · simp only [createUserResponseData, MUser.toJSON, List.map_cons,
      List.map_nil]
    decide
  · simp only [loginUserResponseData, MUser.toJSON, List.map_cons,
      List.map_nil]
    decide

/-- C7 counterexample: the role `"founder"` — one of the seven roles the
claim says role validation accepts — is rejected by both role validators
in the repository. -/
theorem seven_role_claim_counterexample :
    User.VALID_ROLES.contains "founder" = false ∧
    User.validateErrors { validUserBase with role := "founder" } ≠ [] ∧
    (MUser.validate { validUserData with role := "founder" }).1 = false ∧
    "Invalid role specified" ∈
      (MUser.validate { validUserData with role := "founder" }).2 := by
  refine ⟨rfl, ?_, ?_, ?_⟩ <;> decide

/-- Closed evaluation facts used when instantiating the validators at the
concrete fixtures. -/
theorem jsTrim_alice_length : (jsTrim "Alice").length = 5 := by decide

/-- The fixture email address passes the embedded email check. -/
theorem isValidEmail_alice : User.isValidEmail "alice@example.com" = true := by
  decide

/-- The fixture status is among the valid statuses. -/
theorem valid_statuses_active_mem :
    "active" ∈ User.VALID_STATUSES := by decide

/-- C7 (amended): role validation accepts exactly the three roles `user`,
`admin` and `moderator`: on an otherwise-valid record, entity validation
passes iff the role is one of the three, model validation passes iff the
role is empty (skipped) or one of the three, and any record carrying a
role outside the three fails validation. -/
theorem role_validation_accepts_exactly_three_roles
    (r : String) (u : User) (d : MUserData) :
    (User.validateErrors { validUserBase with role := r } = [] ↔
      r ∈ User.VALID_ROLES) ∧
    ((MUser.validateErrors { validUserData with role := r }).isEmpty = true ↔
      r = "" ∨ r ∈ ["user", "admin", "moderator"]) ∧
    (u.role ∉ User.VALID_ROLES → User.validateErrors u ≠ []) ∧
    (d.role ≠ "" → d.role ∉ (["user", "admin", "moderator"] : List String) →
      (MUser.validate d).1 = false) := by
  refine ⟨?_, ?_, fun hrole => ?_, fun hne hrole => ?_⟩
  · by_cases hr : User.VALID_ROLES.contains r = true
    · have hm : r ∈ User.VALID_ROLES := List.elem_iff.mp hr
      refine iff_of_true ?_ hm
      simp [User.validateErrors, validUserBase, hm, jsTrim_alice_length,
        isValidEmail_alice, valid_statuses_active_mem]
    · have hm : r ∉ User.VALID_ROLES := fun h => hr (List.elem_iff.mpr h)
      refine iff_of_false ?_ hm
      simp [User.validateErrors, validUserBase, hm, jsTrim_alice_length,
        isValidEmail_alice, valid_statuses_active_mem]
  · by_cases hre : r = ""
    · subst hre
      decide
    · by_cases hr : (["user", "admin", "moderator"] : List String).contains
        r = true
      · have hm : r = "user" ∨ r = "admin" ∨ r = "moderator" := by
          simpa using List.elem_iff.mp hr
        refine iff_of_true ?_ (Or.inr (List.elem_iff.mp hr))
        simp only [MUser.validateErrors, validUserData]
        simp [jsTrim_alice_length, isValidEmail_alice]
        tauto
      · have hm : ¬(r = "user" ∨ r = "admin" ∨ r = "moderator") := by
          intro h
          exact hr (List.elem_iff.mpr (by simpa using h))
        refine iff_of_false ?_ ?_
        · simp only [MUser.validateErrors, validUserData]
          simp [jsTrim_alice_length, isValidEmail_alice, hre]
          tauto
        · rintro (h | h)
          · exact hre h
          · exact hr (List.elem_iff.mpr h)
  · have hmem : ("Invalid role. Must be one of: " ++
        String.intercalate ", " User.VALID_ROLES) ∈ User.validateErrors u := by
      unfold User.validateErrors
      refine List.mem_append.mpr (Or.inl (List.mem_append.mpr (Or.inr ?_)))
      simpa using hrole
    exact List.ne_nil_of_mem hmem
  · have hmem : "Invalid role specified" ∈ MUser.validateErrors d := by
      unfold MUser.validateErrors
      refine List.mem_append.mpr (Or.inl (List.mem_append.mpr (Or.inr ?_)))
      simp [hne]
      simpa using hrole
    have hne2 : MUser.validateErrors d ≠ [] := List.ne_nil_of_mem hmem
    simp only [MUser.validate]
    simpa using hne2

/-- Witness for the amended C7 at concrete inputs: the role `"student"`
fails entity validation on an otherwise-valid user, and model validation
of a record with role `"student"` fails. -/
theorem role_validation_accepts_exactly_three_roles_witness :
    User.validateErrors
      { validUserBase with role := "student" } ≠ [] ∧
    (MUser.validate { validUserData with role := "student" }).1 = false := by
  have h := role_validation_accepts_exactly_three_roles "student"
    { validUserBase with role := "student" }
    { validUserData with role := "student" }
  exact ⟨h.2.2.1 (by decide), h.2.2.2 (by decide) (by decide)⟩

/-- C2: when a non-withdrawn application by the applicant to the project
already exists, `CreateApplicationUseCase.execute` (given well-formed
input and existing project and applicant) fails with a `ConflictError`
and leaves the store unchanged: no application record is added and the
project's `applications` counter is not incremented. -/
theorem create_application_duplicate_conflict
    (input : CreateApplicationInput) (freshId now : String) (st : AppState)
    (project : Project) (applicant : User)
    (hval : (Application.validateErrors input.applicantId input.projectId
      input.position input.message).isEmpty = true)
    (hp : findProject st input.projectId = some project)
    (hu : findUser st input.applicantId = some applicant)
    (hdup : applicationExists st.applications input.applicantId
      input.projectId = true) :
    ∃ e : Err, CreateApplicationUseCase.execute input freshId now st =
      (Except.error e, st) ∧ e.name = ErrName.conflictError := by
  unfold CreateApplicationUseCase.execute
  simp only [hval, hp, hu]
  by_cases hmem : (project.isTeamMember input.applicantId ||
      project.isOwner input.applicantId) = true
  · exact ⟨⟨ErrName.conflictError, "You are already part of this project"⟩,
      by simp [hmem], rfl⟩
  · have hmem' := Bool.eq_false_iff.mpr hmem
    exact ⟨⟨ErrName.conflictError, "You have already applied to this project"⟩,
      by simp [hmem', hdup], rfl⟩

/-- Witness for C2: the duplicate second application by `user_c` to
`proj_1` in the demo store is rejected with a conflict. -/
theorem create_application_duplicate_conflict_witness :
    ∃ e : Err, CreateApplicationUseCase.execute
      { applicantId := "user_c", projectId := "proj_1"
        position := "Engineer", skills := [], message := ""
        resumeUrl := none } "app_2" "t1" demoState =
      (Except.error e, demoState) ∧ e.name = ErrName.conflictError :=
  create_application_duplicate_conflict
    { applicantId := "user_c", projectId := "proj_1", position := "Engineer"
      skills := [], message := "", resumeUrl := none }
    "app_2" "t1" demoState demoProject carolUser (by decide) (by decide)
    (by decide) (by decide)

/-- C9: when every existing application by the applicant to the project is
withdrawn, the duplicate check reports no existing application, and a
well-formed application by an existing non-member non-owner applicant
succeeds, adding a fresh application with status `pending` to the store. -/
theorem create_application_after_withdrawal_succeeds
    (input : CreateApplicationInput) (freshId now : String) (st : AppState)
    (project : Project) (applicant : User)
    (hval : (Application.validateErrors input.applicantId input.projectId
      input.position input.message).isEmpty = true)
    (hp : findProject st input.projectId = some project)
    (hu : findUser st input.applicantId = some applicant)
    (hteam : project.isTeamMember input.applicantId = false)
    (howner : project.isOwner input.applicantId = false)
    (hw : ∀ a ∈ st.applications, a.applicantId = input.applicantId →
      a.projectId = input.projectId →
      a.status = ApplicationStatus.withdrawn) :
    applicationExists st.applications input.applicantId
      input.projectId = false ∧
    ∃ (app : Application) (st2 : AppState),
      CreateApplicationUseCase.execute input freshId now st =
        (Except.ok app, st2) ∧
      app.status = ApplicationStatus.pending ∧
      app.id = freshId ∧
      app.applicantId = input.applicantId ∧
      app.projectId = input.projectId ∧
      app ∈ st2.applications := by
  have hex : applicationExists st.applications input.applicantId
      input.projectId = false := by
    rw [applicationExists, List.any_eq_false]
    intro a ha
    by_cases h1 : a.applicantId = input.applicantId
    · by_cases h2 : a.projectId = input.projectId
      · simp [h1, h2, hw a ha h1 h2]
      · simp [h2]
    · simp [h1]
  refine ⟨hex, ?_⟩
  unfold CreateApplicationUseCase.execute
  simp only [hval, hp, hu, hteam, howner, hex, Bool.or_self,
    Bool.false_eq_true, if_false]
  simp only [findProject] at hp ⊢
  simp only [hp]
  exact ⟨_, _, rfl, rfl, rfl, rfl, rfl, by simp⟩

/-- Witness for C9: with `user_c`'s only application withdrawn, a fresh
application by `user_c` to `proj_1` succeeds and is pending. -/
theorem create_application_after_withdrawal_succeeds_witness :
    applicationExists withdrawnState.applications "user_c" "proj_1" = false ∧
    ∃ (app : Application) (st2 : AppState),
      CreateApplicationUseCase.execute
        { applicantId := "user_c", projectId := "proj_1"
          position := "Engineer", skills := [], message := ""
          resumeUrl := none } "app_2" "t1" withdrawnState =
        (Except.ok app, st2) ∧
      app.status = ApplicationStatus.pending ∧
      app.id = "app_2" ∧
      app.applicantId = "user_c" ∧
      app.projectId = "proj_1" ∧
      app ∈ st2.applications :=
  create_application_after_withdrawal_succeeds
    { applicantId := "user_c", projectId := "proj_1", position := "Engineer"
      skills := [], message := "", resumeUrl := none }
    "app_2" "t1" withdrawnState demoProject carolUser (by decide) (by decide)
    (by decide) (by decide) (by decide) (by decide)

/-- C3: with the application, its project and the applicant present, and
the reviewer being the project owner: if the application is pending (and
the applicant is not already on the team, so the second write succeeds),
`AcceptApplicationUseCase.execute` returns the accepted application with
`reviewedBy`/`reviewedAt` set, persists it, and the applicant appears in
the project's team with the application's position as role; if the
application is in a terminal status the call fails with a conflict error
and the store is unchanged. -/
theorem accept_application_spec
    (applicationId reviewerId now : String) (st : AppState)
    (application : Application) (project : Project) (applicant : User)
    (ha : findApplication st applicationId = some application)
    (hp : findProject st application.projectId = some project)
    (ho : project.isOwner reviewerId = true)
    (hu : findUser st application.applicantId = some applicant) :
    (application.status = ApplicationStatus.pending →
      project.isTeamMember applicant.id = false →
      ∃ (accepted : Application) (st2 : AppState),
        AcceptApplicationUseCase.execute applicationId reviewerId now st =
          (Except.ok accepted, st2) ∧
        accepted.status = ApplicationStatus.accepted ∧
        accepted.reviewedBy = some reviewerId ∧
        accepted.reviewedAt = some now ∧
        findApplication st2 applicationId = some accepted ∧
        ∃ proj2 : Project, findProject st2 project.id = some proj2 ∧
          proj2.teamMembers.any (fun m =>
            m.id == applicant.id && m.role == application.position) = true) ∧
    (application.status ≠ ApplicationStatus.pending →
      AcceptApplicationUseCase.execute applicationId reviewerId now st =
        (Except.error ⟨ErrName.conflictError,
          "Application has already been processed"⟩, st)) := by
  have ha2 : st.applications.find? (fun a => a.id == applicationId) =
      some application := ha
  have hid : (application.id == applicationId) = true := by
    have h := List.find?_some ha2
    simpa using h
  have hp3 : st.projects.find? (fun p => p.id == application.projectId) =
      some project := hp
  have hpid : project.id = application.projectId := by
    have h := List.find?_some hp3
    simpa using h
  constructor
  · intro hpend hteam
    have hpendb : application.isPending = true := by
      simp [Application.isPending, hpend]
    have hteam2 : project.teamMembers.any
        (fun x => x.id == applicant.id) = false := hteam
    have hp2 : st.projects.find? (fun p => p.id == project.id) =
        some project := by
      rw [hpid]; exact hp
    unfold AcceptApplicationUseCase.execute
    simp only [ha, hp, ho, hpendb, hu, Bool.not_true, Bool.false_eq_true,
      if_false, Application.accept, if_neg, Project.addTeamMember, hteam2]
    simp only [findProject] at hp2 ⊢
    simp only [hp2, hteam2, Bool.false_eq_true, if_false]
    refine ⟨_, _, rfl, rfl, rfl, rfl, ?_, ?_⟩
    · exact find?_updateById ha (by simpa using hid)
    · refine ⟨_, find?_updateById hp2 (by simp), ?_⟩
      simp
  · intro hne
    have hpendb : application.isPending = false := by
      simp [Application.isPending, hne]
    unfold AcceptApplicationUseCase.execute
    simp [ha, hp, ho, hpendb]

/-- Witness for C3 at the demo store: the owner `user_1` accepts the
pending application of `user_c`. -/
theorem accept_application_spec_witness :
    ∃ (accepted : Application) (st2 : AppState),
      AcceptApplicationUseCase.execute "app_1" "user_1" "t1" demoState =
        (Except.ok accepted, st2) ∧
      accepted.status = ApplicationStatus.accepted ∧
      accepted.reviewedBy = some "user_1" ∧
      accepted.reviewedAt = some "t1" ∧
      findApplication st2 "app_1" = some accepted ∧
      ∃ proj2 : Project, findProject st2 demoProject.id = some proj2 ∧
        proj2.teamMembers.any (fun m =>
          m.id == carolUser.id &&
          m.role == carolPendingApp.position) = true :=
  (accept_application_spec "app_1" "user_1" "t1" demoState carolPendingApp
    demoProject carolUser (by decide) (by decide) (by decide)
    (by decide)).1 (by decide) (by decide)

/-- C5: the owner is seeded as a `Founder` team member at creation; every
project operation (`addTeamMember`, `removeTeamMember`, `update`,
`updateStage`, `incrementApplications`) preserves the owner's membership;
and removing the member whose id equals `ownerId` fails, both at the
entity and at the use-case level, leaving the store unchanged. -/
theorem owner_always_team_member :
    (∀ (input : ProjectInput) (freshId now : String) (st : AppState)
      (proj : Project) (st2 : AppState),
      CreateProjectUseCase.execute input freshId now st =
        (Except.ok proj, st2) →
      ∃ m ∈ proj.teamMembers, m.id = proj.ownerId ∧ m.role = "Founder") ∧
    (∀ (p : Project) (m : TeamMember) (now : String) (p2 : Project),
      ownerOnTeam p → p.addTeamMember m now = Except.ok p2 →
      ownerOnTeam p2) ∧
    (∀ (p : Project) (mid now : String) (p2 : Project),
      ownerOnTeam p → p.removeTeamMember mid now = Except.ok p2 →
      ownerOnTeam p2) ∧
    (∀ (p : Project) (d : ProjectUpdate) (now : String),
      ownerOnTeam p → ownerOnTeam (p.update d now)) ∧
    (∀ (p : Project) (s now : String) (p2 : Project),
      ownerOnTeam p → p.updateStage s now = Except.ok p2 →
      ownerOnTeam p2) ∧
    (∀ (p : Project) (now : String),
      ownerOnTeam p → ownerOnTeam (p.incrementApplications now)) ∧
    (∀ (p : Project) (now : String),
      p.removeTeamMember p.ownerId now =
        Except.error "Cannot remove the project owner") ∧
    (∀ (projectId requesterId now : String) (st : AppState) (p : Project),
      findProject st projectId = some p →
      (RemoveTeamMemberUseCase.execute projectId p.ownerId requesterId now
        st).1.isOk = false ∧
      (RemoveTeamMemberUseCase.execute projectId p.ownerId requesterId now
        st).2 = st) := by
  refine ⟨?_, ?_, ?_, ?_, ?_, ?_, ?_, ?_⟩
  · intro input freshId now st proj st2 h
    unfold CreateProjectUseCase.execute at h
    cases hu : findUser st input.ownerId with
    | none => rw [hu] at h; simp at h
    | some owner =>
      rw [hu] at h
      have hu2 : st.users.find? (fun u => u.id == input.ownerId) =
          some owner := hu
      have hoid : owner.id = input.ownerId := by
        have h2 := List.find?_some hu2
        simpa using h2
      by_cases hex : existsByTitleAndOwner st.projects input.title
          input.ownerId = true
      · simp [hex] at h
      · have hex2 := Bool.eq_false_iff.mpr hex
        by_cases hv : (Project.validateErrors input).isEmpty = true
        · simp only [hex2, Bool.false_eq_true, if_false, hv,
            Bool.true_eq_false, Prod.mk.injEq, Except.ok.injEq] at h
          refine ⟨{ id := owner.id, name := owner.name, role := "Founder"
                    avatar := owner.avatar, email := owner.email
                    joinedAt := none }, ?_, ?_, rfl⟩
          · rw [← h.1]
            simp [Project.create]
          · rw [← h.1]
            simpa [Project.create] using hoid
        · have hv2 : (Project.validateErrors input).isEmpty = false :=
            Bool.eq_false_iff.mpr hv
          simp [hex2, hv2] at h
  · intro p m now p2 hO h
    unfold Project.addTeamMember at h
    by_cases hdup : p.teamMembers.any (fun x => x.id == m.id) = true
    · simp [hdup] at h
    · have hdup2 := Bool.eq_false_iff.mpr hdup
      simp only [hdup2, Bool.false_eq_true, if_false, Except.ok.injEq] at h
      obtain ⟨m0, hm0, hid0⟩ := hO
      exact ⟨m0, by rw [← h]; simpa using Or.inl hm0, by rw [← h]; exact hid0⟩
  · intro p mid now p2 hO h
    unfold Project.removeTeamMember at h
    by_cases howner : (mid == p.ownerId) = true
    · simp [howner] at h
    · have howner2 := Bool.eq_false_iff.mpr howner
      by_cases hfound : p.teamMembers.any (fun x => x.id == mid) = true
      · simp only [howner2, Bool.false_eq_true, if_false, hfound,
          Bool.not_true, Except.ok.injEq] at h
        obtain ⟨m0, hm0, hid0⟩ := hO
        have hmid : mid ≠ p.ownerId := fun he => howner (by simp [he])
        have hpred : (m0.id == mid) = false := by
          rw [hid0]
          exact beq_eq_false_iff_ne.mpr (fun he => hmid he.symm)
        refine ⟨m0, ?_, ?_⟩
        · rw [← h]
          simpa using mem_eraseP_of_pred_false hm0 hpred
        · rw [← h]; exact hid0
      · have hfound2 := Bool.eq_false_iff.mpr hfound
        simp [howner2, hfound2] at h
  · intro p d now hO
    obtain ⟨m0, hm0, hid0⟩ := hO
    exact ⟨m0, hm0, hid0⟩
  · intro p s now p2 hO h
    unfold Project.updateStage at h
    by_cases hstage : s ∈ Project.STAGES
    · simp only [List.elem_iff.mpr hstage, Bool.not_true, Bool.false_eq_true,
        if_false, Except.ok.injEq] at h
      obtain ⟨m0, hm0, hid0⟩ := hO
      exact ⟨m0, by rw [← h]; exact hm0, by rw [← h]; exact hid0⟩
    · simp [hstage] at h
  · intro p now hO
    obtain ⟨m0, hm0, hid0⟩ := hO
    exact ⟨m0, hm0, hid0⟩
  · intro p now
    simp [Project.removeTeamMember]
  · intro projectId requesterId now st p hfind
    unfold RemoveTeamMemberUseCase.execute
    rw [hfind]
    by_cases hb : (p.ownerId == requesterId) = true
    · simp [hb, Except.isOk, Except.toBool]
    · have hb2 := Bool.eq_false_iff.mpr hb
      simp [hb2, Except.isOk, Except.toBool]

/-- Witness for C5: the created demo project carries its owner as a
`Founder` member; removing the owner fails at the entity and at the
use-case level with the store unchanged. -/
theorem owner_always_team_member_witness :
    (∃ m ∈ createdDemoProject.teamMembers,
      m.id = createdDemoProject.ownerId ∧ m.role = "Founder") ∧
    demoProject.removeTeamMember demoProject.ownerId "t1" =
      Except.error "Cannot remove the project owner" ∧
    (RemoveTeamMemberUseCase.execute "proj_1" demoProject.ownerId "user_b"
      "t1" demoState).1.isOk = false ∧
    (RemoveTeamMemberUseCase.execute "proj_1" demoProject.ownerId "user_b"
      "t1" demoState).2 = demoState := by
  have h := owner_always_team_member
  have h8 := h.2.2.2.2.2.2.2 "proj_1" "user_b" "t1" demoState demoProject
    (by decide)
  exact ⟨h.1 demoProjectInput "proj_9" "t1" demoState createdDemoProject
      createdDemoState (by rfl),
    h.2.2.2.2.2.2.1 demoProject "t1", h8.1, h8.2⟩

/-- C6 counterexample: removal is not owner-only — the non-owner member
`user_b` removes themselves through `RemoveTeamMemberUseCase`, the call
succeeds and the team list changes. -/
theorem team_member_removal_owner_only_counterexample :
    demoProject.ownerId = "user_1" ∧
    (RemoveTeamMemberUseCase.execute "proj_1" "user_b" "user_b" "t1"
      demoState).1 = Except.ok demoProjectAfterSelfRemoval ∧
    findProject (RemoveTeamMemberUseCase.execute "proj_1" "user_b" "user_b"
      "t1" demoState).2 "proj_1" = some demoProjectAfterSelfRemoval :=
  ⟨rfl, rfl, rfl⟩

/-- C6 (amended): adding a team member fails with an authorization error
for every requester who is not the owner; removing fails with an
authorization error for every requester who is neither the owner nor the
removed member themselves; in both cases the store is unchanged.
(Self-removal by a non-owner member is permitted by the code.) -/
theorem team_membership_mutation_authorization
    (projectId memberId role requesterId now : String) (st : AppState)
    (project : Project)
    (hp : findProject st projectId = some project) :
    (project.ownerId ≠ requesterId →
      AddTeamMemberUseCase.execute projectId memberId role requesterId now
        st = (Except.error ⟨ErrName.authorizationError,
          "Not authorized to add team members"⟩, st)) ∧
    (project.ownerId ≠ requesterId → memberId ≠ requesterId →
      RemoveTeamMemberUseCase.execute projectId memberId requesterId now
        st = (Except.error ⟨ErrName.authorizationError,
          "Not authorized to remove this team member"⟩, st)) := by
  constructor
  · intro hne
    unfold AddTeamMemberUseCase.execute
    rw [hp]
    simp [hne]
  · intro hne hself
    unfold RemoveTeamMemberUseCase.execute
    rw [hp]
    have h1 : (project.ownerId == requesterId) = false :=
      beq_eq_false_iff_ne.mpr hne
    have h2 : (memberId == requesterId) = false :=
      beq_eq_false_iff_ne.mpr hself
    simp [h1, h2]

/-- Witness for the amended C6: the outsider `user_c` can neither add nor
remove members of `proj_1`. -/
theorem team_membership_mutation_authorization_witness :
    AddTeamMemberUseCase.execute "proj_1" "user_c" "Engineer" "user_c" "t1"
      demoState = (Except.error ⟨ErrName.authorizationError,
        "Not authorized to add team members"⟩, demoState) ∧
    RemoveTeamMemberUseCase.execute "proj_1" "user_b" "user_c" "t1"
      demoState = (Except.error ⟨ErrName.authorizationError,
        "Not authorized to remove this team member"⟩, demoState) :=
  ⟨(team_membership_mutation_authorization "proj_1" "user_c" "Engineer"
      "user_c" "t1" demoState demoProject (by decide)).1 (by decide),
   (team_membership_mutation_authorization "proj_1" "user_b" "Engineer"
      "user_c" "t1" demoState demoProject (by decide)).2 (by decide)
      (by decide)⟩

/-- C8: `paginate` with `page = 2`, `limit = 10` over any 25-record list
returns exactly records 11–20 in input order, with `totalPages = 3`,
`totalItems = 25`, `itemsPerPage = 10`, `hasNextPage` and `hasPrevPage`
both true. -/
theorem paginate_page2_limit10_on_25 (α : Type) (l : List α)
    (h : l.length = 25) :
    (paginate l 2 10).data = (l.drop 10).take 10 ∧
    (paginate l 2 10).pagination =
      { currentPage := 2, totalPages := 3, totalItems := 25
        itemsPerPage := 10, hasNextPage := true, hasPrevPage := true } := by
  constructor
  · simp [paginate]
  · simp [paginate, h]

/-- Witness for C8 on the concrete list `0, …, 24`. -/
theorem paginate_page2_limit10_on_25_witness :
    (paginate (List.range 25) 2 10).data =
      ((List.range 25).drop 10).take 10 ∧
    (paginate (List.range 25) 2 10).pagination =
      { currentPage := 2, totalPages := 3, totalItems := 25
        itemsPerPage := 10, hasNextPage := true, hasPrevPage := true } :=
  paginate_page2_limit10_on_25 Nat (List.range 25) (by simp)

end Teamera
